import Mathlib

/-!
Verification development for the mcai_worker_sdk repository.

The repository contains two generations of the worker SDK:

* `src/src/lib.rs` — the original AMQP worker: a `MessageEvent` trait with a
  default `process` hook, and `start_worker`, whose consumer loop dispatches
  each delivered message, publishes a completed or error response and settles
  the delivery with `basic_ack` / `basic_reject`.
* `src/rs_mcai_worker_sdk/src/lib.rs` — the rewritten SDK: `start_worker`
  builds a `WorkerConfiguration`, handles the `DESCRIBE` mode, calls the
  handler `init`, and either replays local source orders through a
  `LocalExchange` or enters the broker supervision loop.
* `src/rs_mcai_worker_sdk/src/parameter/credential.rs` — the credential
  resolver `request_value`.

Pure functions of the source are embedded as Lean functions; the effectful
dispatch loops are embedded as functions from their inputs (handler result,
publish outcomes, environment) to the list of broker / worker effects they
perform.  Parts of the repository that the crate declares but whose sources
are absent (the `job`, `worker`, `message_exchange` and `processor` modules
of the new SDK) are modelled from the specification, each marked as such in
its doc comment.
-/

/-- JSON values as produced by the `json!` macro in the source: objects keep
the textual field order of the source. -/
inductive Json where
  | null
  | bool (b : Bool)
  | num (n : Nat)
  | str (s : String)
  | arr (elements : List Json)
  | obj (fields : List (String × Json))

/-- Field lookup in a JSON object; `none` on non-objects and missing keys. -/
def Json.lookup (j : Json) (key : String) : Option Json :=
  match j with
  | .obj fields => fields.lookup key
  | _ => none

/-- Embeds `enum MessageError` of `src/src/lib.rs` (the new SDK reuses the
same taxonomy; its `error` module is absent from `src/`). -/
inductive MessageError where
  | runtimeError (msg : String)
  | processingError (jobId : Nat) (msg : String)
  | requirementsError (msg : String)
  | notImplemented
deriving DecidableEq

namespace AmqpWorker

/-- Embeds the default body of `MessageEvent::process` in `src/src/lib.rs`
(lines 36-41): `Err(MessageError::NotImplemented())` for every message. -/
def processDefault (_message : String) : Except MessageError Nat :=
  .error .notImplemented

/-- Embeds the `json!` payload built on `Ok(job_id)` in `start_worker`
(lines 146-149 of `src/src/lib.rs`). -/
def completedMessage (jobId : Nat) : Json :=
  .obj [("job_id", .num jobId), ("status", .str "completed")]

/-- Embeds the `json!` payload built for `MessageError::ProcessingError`
(lines 196-200 of `src/src/lib.rs`). -/
def processingErrorMessage (jobId : Nat) (msg : String) : Json :=
  .obj [("status", .str "error"), ("job_id", .num jobId), ("message", .str msg)]

/-- Embeds the `json!` payload built for `MessageError::RuntimeError`
(lines 228-231 of `src/src/lib.rs`). -/
def runtimeErrorMessage (msg : String) : Json :=
  .obj [("status", .str "error"), ("message", .str msg)]

/-- Broker operations performed by the dispatch loop on a delivery.  A
`publish` records the target queue, the payload and whether the publish
succeeded (the `.wait()` result in the source). -/
inductive BrokerAction where
  | publish (queue : String) (payload : Json) (ok : Bool)
  | ack (tag : Nat)
  | reject (tag : Nat) (requeue : Bool)

/-- Embeds the body of the `stream.for_each` closure in `start_worker`
(lines 139-262 of `src/src/lib.rs`): given the result of
`MessageEvent::process`, the delivery tag and the publish outcomes of the
channel (`publishOk q p` is whether `basic_publish(q, p).wait()` returns
`Ok`), the list of broker operations performed, in order. -/
def dispatchDelivery (res : Except MessageError Nat) (tag : Nat)
    (completedQueue errorQueue : String) (publishOk : String → Json → Bool) :
    List BrokerAction :=
  match res with
  | .ok jobId =>
    let msg := completedMessage jobId
    if publishOk completedQueue msg then
      [.publish completedQueue msg true, .ack tag]
    else
      [.publish completedQueue msg false, .reject tag true]
  | .error (.requirementsError _) => [.reject tag true]
  | .error .notImplemented => [.reject tag true]
  | .error (.processingError jobId m) =>
    let content := processingErrorMessage jobId m
    if publishOk errorQueue content then
      [.publish errorQueue content true, .ack tag]
    else
      [.publish errorQueue content false, .reject tag true]
  | .error (.runtimeError m) =>
    let content := runtimeErrorMessage m
    if publishOk errorQueue content then
      [.publish errorQueue content true, .ack tag]
    else
      [.publish errorQueue content false, .reject tag true]

/-- Whether a broker action settles (acknowledges or rejects) the given
delivery tag. -/
def settlesTag (tag : Nat) (a : BrokerAction) : Bool :=
  match a with
  | .ack t => t == tag
  | .reject t _ => t == tag
  | .publish _ _ _ => false

/-- Whether a broker action is a publish. -/
def isPublish (a : BrokerAction) : Bool :=
  match a with
  | .publish _ _ _ => true
  | _ => false

end AmqpWorker

namespace McaiWorkerSdk

/-- Modelled from the spec: a parameter value of the `Parameter` type of the
absent `parameter` module — a discriminated value (string, integer, boolean,
array of strings, array of integers, or a stored-credential reference). -/
inductive ParameterValue where
  | string (s : String)
  | integer (i : Int)
  | boolean (b : Bool)
  | arrayOfStrings (xs : List String)
  | arrayOfIntegers (xs : List Int)
  | credential (store : String) (key : String)

/-- Modelled from the spec: a `Parameter` of the absent `parameter` module —
an `id` unique within a job and a discriminated value. -/
structure Parameter where
  id : String
  value : ParameterValue

/-- Embeds `job::Job` of the new SDK, as exhibited by the
`empty_message_event_impl` test in `src/rs_mcai_worker_sdk/src/lib.rs`
(lines 440-443): a `job_id` and a parameter list. -/
structure Job where
  job_id : Nat
  parameters : List Parameter

/-- Modelled from the spec: the status field of a `JobResult`
(`status ∈ {unknown, completed, error}`); the `job` module is absent. -/
inductive JobStatus where
  | unknown
  | completed
  | error

/-- Modelled from the spec: `JobResult` of the absent `job` module —
`job_id`, a status, an ordered list of key/value result parameters, and a
creation timestamp. -/
structure JobResult where
  job_id : Nat
  status : JobStatus
  parameters : List (String × String)
  datetime : String

/-- Modelled from the spec: `JobProgression` of the absent `job` module —
`{job_id, progress, datetime}`. -/
structure JobProgression where
  job_id : Nat
  progress : Nat
  datetime : String

/-- Modelled from the spec: `WorkerConfiguration` of the absent `worker`
module — `{queue, worker_name, short_description, description, version,
sdk_version, instance_id, parameter_schema}`, built once at startup. -/
structure WorkerConfiguration where
  queue : String
  worker_name : String
  short_description : String
  description : String
  worker_version : String
  sdk_version : String
  instance_id : String
  parameter_schema : Json

/-- Modelled from the spec: the serialization of a `WorkerConfiguration`
printed in `DESCRIBE` mode (the `worker` module is absent); the spec's
DESCRIBE scenario gives the fields `{queue, worker_name, worker_version,
sdk_version, instance_id, parameters}`. -/
def WorkerConfiguration.serialize (c : WorkerConfiguration) : Json :=
  .obj [("queue", .str c.queue),
        ("worker_name", .str c.worker_name),
        ("worker_version", .str c.worker_version),
        ("sdk_version", .str c.sdk_version),
        ("instance_id", .str c.instance_id),
        ("parameters", c.parameter_schema)]

/-- Modelled from the spec: `OrderMessage` of the absent `message_exchange`
module — the discriminated union of orders. -/
inductive OrderMessage where
  | initProcess (job : Job)
  | startProcess (job : Job)
  | stopProcess (job : Job)
  | jobStatus (job : Job)
  | stopWorker

/-- Modelled from the spec: `ResponseMessage` of the absent
`message_exchange` module — the discriminated union of responses. -/
inductive ResponseMessage where
  | initialized (result : JobResult)
  | started (result : JobResult)
  | completed (result : JobResult)
  | progression (p : JobProgression)
  | error (e : MessageError)
  | workerCreated (c : WorkerConfiguration)
  | workerInitialized (result : JobResult)
  | workerStarted (result : JobResult)

/-- Whether a response is terminal, exactly as matched by the replay loop of
`start_worker` (lines 370-375 of `src/rs_mcai_worker_sdk/src/lib.rs`):
`Some(Completed(_))` or `Some(Error(_))`. -/
def isTerminal (m : Option ResponseMessage) : Bool :=
  match m with
  | some (.completed _) => true
  | some (.error _) => true
  | _ => false

/-- An item yielded by `LocalExchange::next_response()` in the replay loop:
`Ok` carrying an optional response, or `Err` (which exits the `while let`). -/
abbrev RespItem : Type := Except Unit (Option ResponseMessage)

/-- Embeds the inner `while let Ok(message) = local_exchange.next_response()`
loop of `start_worker` (lines 368-376): reads items from the response stream
until the first terminal response (break) or an `Err` (loop exit); returns
the `Ok` messages read together with the unconsumed remainder, or `none`
when the stream runs dry without exiting (the real call would block). -/
def consumeUntil : List RespItem → Option (List (Option ResponseMessage) × List RespItem)
  | [] => none
  | .error _ :: rest => some ([], rest)
  | .ok m :: rest =>
    if isTerminal m then
      some ([m], rest)
    else
      match consumeUntil rest with
      | none => none
      | some (ms, r) => some (m :: ms, r)

/-- The record of one iteration of the replay loop over one source-order
file: the parsed job (whose `InitProcess` and then `StartProcess` orders are
sent) and the responses read before moving to the next file. -/
structure FileTrace where
  job : Job
  reads : List (Option ResponseMessage)

/-- Outcome of the replay loop over the source-order files. `panic` models
the `unwrap()` on a failed `fs::read_to_string` or `Job::new`; `blocked`
models a `next_response()` call that never returns. Each carries the
iterations completed before the event. -/
inductive ReplayResult where
  | panic (completed : List FileTrace)
  | blocked (completed : List FileTrace) (job : Job)
  | done (completed : List FileTrace) (rest : List RespItem)

/-- Embeds the `for source_order in &source_orders` loop of `start_worker`
(lines 344-377 of `src/rs_mcai_worker_sdk/src/lib.rs`).  `readFile` models
`fs::read_to_string` and `parseJob` models `job::Job::new` (the `job` module
is absent from `src/`; per the spec it parses the JSON document
`{"job_id": N, "parameters": [...]}`); `none` makes the corresponding
`unwrap()` panic.  For each file, in source order: read, parse, send
`InitProcess` then `StartProcess`, then read responses until a terminal
one. -/
def replayRun (readFile : String → Option String) (parseJob : String → Option Job) :
    List String → List RespItem → ReplayResult
  | [], s => .done [] s
  | f :: fs, s =>
    match readFile f with
    | none => .panic []
    | some content =>
      match parseJob content with
      | none => .panic []
      | some job =>
        match consumeUntil s with
        | none => .blocked [] job
        | some (ms, rest) =>
          match replayRun readFile parseJob fs rest with
          | .panic fts => .panic ({ job := job, reads := ms } :: fts)
          | .blocked fts j => .blocked ({ job := job, reads := ms } :: fts) j
          | .done fts rest2 => .done ({ job := job, reads := ms } :: fts) rest2

/-- Observable effects of `start_worker` of the new SDK, in order. -/
inductive WorkerEffect where
  | logError (msg : String)
  | printLine (content : Json)
  | handlerInit
  | sendOrder (order : OrderMessage)
  | readResponse (m : Option ResponseMessage)
  | connectBroker

/-- The effects of one replay-loop iteration: `InitProcess` then
`StartProcess` sent on the local exchange, then the responses read. -/
def FileTrace.effects (ft : FileTrace) : List WorkerEffect :=
  WorkerEffect.sendOrder (.initProcess ft.job)
    :: WorkerEffect.sendOrder (.startProcess ft.job)
    :: ft.reads.map WorkerEffect.readResponse

/-- The orders sent in an effect list, in order. -/
def ordersOf (tr : List WorkerEffect) : List OrderMessage :=
  tr.filterMap fun e =>
    match e with
    | .sendOrder o => some o
    | _ => none

/-- Embeds `bool::from_str` applied in the `DESCRIBE` check: only the exact
strings `true` and `false` parse. -/
def boolFromStr (s : String) : Option Bool :=
  if s = "true" then some true
  else if s = "false" then some false
  else none

/-- Embeds the `DESCRIBE` truthiness test of `start_worker` (line 313 of
`src/rs_mcai_worker_sdk/src/lib.rs`):
`enabled == "1" || bool::from_str(&enabled.to_lowercase()).unwrap_or(false)`. -/
def describeEnabled (enabled : String) : Bool :=
  enabled == "1" || (boolFromStr enabled.toLower).getD false

/-- The environment `start_worker` runs in: the `WorkerConfiguration::new`
result, the `DESCRIBE` variable, whether `serde_json::to_string_pretty`
succeeds, the handler `init()` result, the optional source-orders list, the
filesystem, the `Job::new` parser, and the stream of responses produced by
the processor on the local exchange. -/
structure WorkerEnv where
  configResult : Except String WorkerConfiguration
  describeVar : Option String
  serializeOk : Bool
  initResult : Except String Unit
  sourceOrders : Option (List String)
  readFile : String → Option String
  parseJob : String → Option Job
  responses : List RespItem

/-- How `start_worker` of the new SDK ends.  `exited c` means the function
returned normally, so a `main` that only calls it exits with status `c`;
`panicked` models an `unwrap()` panic; `blocked` a replay that never sees a
terminal response; `supervising` the infinite broker supervision loop. -/
inductive WorkerOutcome where
  | exited (code : Nat)
  | panicked
  | blocked
  | supervising
deriving DecidableEq

/-- Whether the environment requests `DESCRIBE` mode. -/
def describeRequested (env : WorkerEnv) : Bool :=
  match env.describeVar with
  | some s => describeEnabled s
  | none => false

/-- Embeds `start_worker` of `src/rs_mcai_worker_sdk/src/lib.rs` from the
handler-init call onward (lines 324-411): init failure returns, source
orders are replayed via `replayRun`, otherwise the broker supervision loop
is entered. -/
def startWorkerContinue (env : WorkerEnv) : WorkerOutcome × List WorkerEffect :=
  match env.initResult with
  | .error e => (.exited 0, [.handlerInit, .logError e])
  | .ok _ =>
    match env.sourceOrders with
    | some files =>
      match replayRun env.readFile env.parseJob files env.responses with
      | .panic fts => (.panicked, .handlerInit :: fts.flatMap FileTrace.effects)
      | .blocked fts j =>
        (.blocked, .handlerInit :: (fts.flatMap FileTrace.effects
          ++ [.sendOrder (.initProcess j), .sendOrder (.startProcess j)]))
      | .done fts _ => (.exited 0, .handlerInit :: fts.flatMap FileTrace.effects)
    | none => (.supervising, [.handlerInit, .connectBroker])

/-- Embeds `start_worker` of `src/rs_mcai_worker_sdk/src/lib.rs`
(lines 296-411): configuration-error early return, the `DESCRIBE` mode
(print the serialized configuration and return; on a serialization error
log and fall through), then handler init and the replay or broker phases.
The outcome records the process exit status when the function returns. -/
def startWorkerModel (env : WorkerEnv) : WorkerOutcome × List WorkerEffect :=
  match env.configResult with
  | .error e => (.exited 0, [.logError e])
  | .ok cfg =>
    match env.describeVar with
    | some s =>
      if describeEnabled s then
        if env.serializeOk then
          (.exited 0, [.printLine cfg.serialize])
        else
          let (o, tr) := startWorkerContinue env
          (o, .logError "Could not serialize worker configuration" :: tr)
      else startWorkerContinue env
    | none => startWorkerContinue env

/-- Embeds the default body of `MessageEvent::process` of the new SDK
(lines 257-267 of `src/rs_mcai_worker_sdk/src/lib.rs`):
`Err(MessageError::NotImplemented())` for every channel, parameter set and
job result.  `C` stands for the opaque `McaiChannel`, `P` for the worker's
declared parameter type. -/
def processDefault {C P : Type} (_channel : Option C) (_parameters : P)
    (_job_result : JobResult) : Except MessageError JobResult :=
  .error .notImplemented

/-- Holds of a read sequence that stops exactly at its first terminal
response: every read before the last is non-terminal and the last read is
terminal. -/
def stopsAtTerminal : List (Option ResponseMessage) → Bool
  | [] => false
  | [m] => isTerminal m
  | m :: (m2 :: rest) => !isTerminal m && stopsAtTerminal (m2 :: rest)

end McaiWorkerSdk

namespace Credential

/-- Embeds `job::Session`: the credentials posted to open a backend
session. -/
structure Session where
  email : String
  password : String

/-- Embeds `job::SessionBody`: the JSON body of the session request. -/
structure SessionBody where
  session : Session

/-- Embeds `job::SessionResponseBody`: carries the access token returned by
the backend. -/
structure SessionResponseBody where
  access_token : String

/-- Embeds the `data` object of `job::ValueResponseBody`. -/
structure ValueData where
  value : String

/-- Embeds `job::ValueResponseBody`: carries the credential value returned
by the backend. -/
structure ValueResponseBody where
  data : ValueData

/-- The backend configuration read by `request_value` via
`get_backend_hostname`, `get_backend_username`, `get_backend_password`. -/
structure BackendConfig where
  hostname : String
  username : String
  password : String

/-- An HTTP request issued by `request_value`, with its target URL; the GET
carries the default headers of its client. -/
inductive HttpRequest where
  | post (url : String) (body : SessionBody)
  | get (url : String) (headers : List (String × String))

/-- The HTTP collaborators of `request_value`: client construction with
default headers, the session POST and the credential GET, each either
returning the deserialized response body or an error string. -/
structure HttpEnv where
  buildClient : List (String × String) → Except String Unit
  postSession : String → SessionBody → Except String SessionResponseBody
  getCredential : String → List (String × String) → Except String ValueResponseBody

/-- Embeds `HeaderValue::from_str` applied to the access token: accepts
strings of visible characters (tab, or code at least 32 and distinct from
127). -/
def headerValueFromStr (s : String) : Except String String :=
  if s.toList.all (fun c => c == Char.ofNat 9 || (32 ≤ c.toNat && c.toNat ≠ 127)) then
    .ok s
  else
    .error "InvalidHeaderValue"

/-- Embeds `request_value` of
`src/rs_mcai_worker_sdk/src/parameter/credential.rs` (lines 21-66): builds
the session and credential URLs, opens a session with the backend
credentials, turns the access token into an authorization header, fetches
the credential by key, and returns its value.  The second component records
the HTTP requests issued, in order.  The `store_code` argument is the
source's `_store_code`. -/
def request_value (credential_key : String) (_store_code : String)
    (cfg : BackendConfig) (env : HttpEnv) :
    Except String String × List HttpRequest :=
  let session_url := cfg.hostname ++ "/sessions"
  let credential_url := cfg.hostname ++ "/credentials/" ++ credential_key
  match env.buildClient [] with
  | .error e => (.error e, [])
  | .ok _ =>
    let session_body : SessionBody :=
      { session := { email := cfg.username, password := cfg.password } }
    match env.postSession session_url session_body with
    | .error e => (.error e, [.post session_url session_body])
    | .ok response =>
      match headerValueFromStr response.access_token with
      | .error e => (.error e, [.post session_url session_body])
      | .ok token =>
        let headers := [("authorization", token)]
        match env.buildClient headers with
        | .error e => (.error e, [.post session_url session_body])
        | .ok _ =>
          match env.getCredential credential_url headers with
          | .error e =>
            (.error e, [.post session_url session_body, .get credential_url headers])
          | .ok vresp =>
            (.ok vresp.data.value,
             [.post session_url session_body, .get credential_url headers])

/-- The target URL of an HTTP request. -/
def HttpRequest.url (r : HttpRequest) : String :=
  match r with
  | .post u _ => u
  | .get u _ => u

/-- Whether an HTTP request is a POST. -/
def HttpRequest.isPost (r : HttpRequest) : Bool :=
  match r with
  | .post _ _ => true
  | .get _ _ => false

/-- A concrete backend configuration used to evaluate the model. -/
def sampleBackend : BackendConfig :=
  { hostname := "http://backend/api", username := "user", password := "pass" }

/-- A concrete HTTP collaborator where every call succeeds. -/
def sampleHttp : HttpEnv :=
  { buildClient := fun _ => .ok ()
    postSession := fun _ _ => .ok { access_token := "token" }
    getCredential := fun _ _ => .ok { data := { value := "secret" } } }

end Credential

namespace McaiWorkerSdk

/-- A concrete worker configuration used to evaluate the model. -/
def sampleConfig : WorkerConfiguration :=
  { queue := "job_sample"
    worker_name := "sample"
    short_description := "short"
    description := "long"
    worker_version := "0.0.1"
    sdk_version := "1.0.0"
    instance_id := "instance"
    parameter_schema := .obj [] }

/-- A concrete job used to evaluate the model. -/
def sampleJob : Job := { job_id := 1, parameters := [] }

/-- A concrete job result used to evaluate the model. -/
def sampleResult : JobResult :=
  { job_id := 1, status := .completed, parameters := []
    datetime := "2020-01-01T00:00:00Z" }

/-- A concrete response stream: `Initialized`, `Started`, then the terminal
`Completed`. -/
def sampleResponses : List RespItem :=
  [.ok (some (.initialized sampleResult)),
   .ok (some (.started sampleResult)),
   .ok (some (.completed sampleResult))]

/-- A concrete environment: one source-order file that reads and parses
into `sampleJob`, with `sampleResponses` on the local exchange. -/
def sampleEnv : WorkerEnv :=
  { configResult := .ok sampleConfig
    describeVar := none
    serializeOk := true
    initResult := .ok ()
    sourceOrders := some ["order.json"]
    readFile := fun f => if f == "order.json" then some "order-content" else none
    parseJob := fun c => if c == "order-content" then some sampleJob else none
    responses := sampleResponses }

/-- The replay-loop iteration `sampleEnv` produces for its single file. -/
def sampleTrace : FileTrace :=
  { job := sampleJob
    reads := [some (.initialized sampleResult),
              some (.started sampleResult),
              some (.completed sampleResult)] }

/-- The environment `sampleEnv` with `DESCRIBE=1` and no source orders. -/
def describeEnv : WorkerEnv :=
  { sampleEnv with describeVar := some "1", sourceOrders := none }

/-- The environment `sampleEnv` with a failing `WorkerConfiguration::new`. -/
def configErrorEnv : WorkerEnv :=
  { sampleEnv with configResult := .error "configuration error" }

/-- The environment `sampleEnv` with a failing handler `init()`. -/
def initErrorEnv : WorkerEnv :=
  { sampleEnv with initResult := .error "init failed" }

/-- The environment `sampleEnv` where no order file can be read. -/
def badFileEnv : WorkerEnv :=
  { sampleEnv with readFile := fun _ => none }

end McaiWorkerSdk


namespace AmqpWorker

/-- C1: every delivered order message is settled exactly once by the
dispatch loop of `start_worker`: the trace of broker actions contains
exactly one acknowledge-or-reject of the delivery tag; after a successful
terminal publish the last action acknowledges the delivery, after a failed
publish the last action rejects it with requeue, and the requeue-class
errors (`RequirementsError`, `NotImplemented`) reject it with requeue. -/
theorem dispatch_settles_exactly_once (res : Except MessageError Nat) (tag : Nat)
    (cq eq : String) (pubOk : String → Json → Bool) :
    (dispatchDelivery res tag cq eq pubOk).countP (settlesTag tag) = 1
    ∧ (∀ q p, BrokerAction.publish q p true ∈ dispatchDelivery res tag cq eq pubOk →
        (dispatchDelivery res tag cq eq pubOk).getLast? = some (.ack tag))
    ∧ (∀ q p, BrokerAction.publish q p false ∈ dispatchDelivery res tag cq eq pubOk →
        (dispatchDelivery res tag cq eq pubOk).getLast? = some (.reject tag true))
    ∧ (res = .error .notImplemented →
        dispatchDelivery res tag cq eq pubOk = [.reject tag true])
    ∧ (∀ m, res = .error (.requirementsError m) →
        dispatchDelivery res tag cq eq pubOk = [.reject tag true]) := by
  cases res with
  | ok jobId =>
    cases h : pubOk cq (completedMessage jobId) <;>
      refine ⟨?_, ?_, ?_, ?_, ?_⟩ <;>
        simp [dispatchDelivery, h, settlesTag, List.countP_cons]
  | error err =>
    cases err with
    | runtimeError m =>
      cases h : pubOk eq (runtimeErrorMessage m) <;>
        refine ⟨?_, ?_, ?_, ?_, ?_⟩ <;>
          simp [dispatchDelivery, h, settlesTag, List.countP_cons]
    | processingError jobId m =>
      cases h : pubOk eq (processingErrorMessage jobId m) <;>
        refine ⟨?_, ?_, ?_, ?_, ?_⟩ <;>
          simp [dispatchDelivery, h, settlesTag, List.countP_cons]
    | requirementsError m =>
      refine ⟨?_, ?_, ?_, ?_, ?_⟩ <;>
        simp [dispatchDelivery, settlesTag, List.countP_cons]
    | notImplemented =>
      refine ⟨?_, ?_, ?_, ?_, ?_⟩ <;>
        simp [dispatchDelivery, settlesTag, List.countP_cons]

/-- Witness for C1 at a concrete requeue-class input: a `RequirementsError`
delivery is settled by a single reject-with-requeue. -/
theorem dispatch_settles_exactly_once_witness :
    dispatchDelivery (.error (.requirementsError "missing")) 3 "q_completed"
        "q_error" (fun _ _ => true) = [.reject 3 true] :=
  (dispatch_settles_exactly_once (.error (.requirementsError "missing")) 3
      "q_completed" "q_error" (fun _ _ => true)).2.2.2.2 "missing" rfl

/-- C2: when the handler returns `ProcessingError(job_id, message)` and the
error-queue publish succeeds, the dispatch loop publishes to the error
queue the JSON document with that `job_id`, status `error` and the message,
and then acknowledges the original delivery. -/
theorem processing_error_publishes_and_acks (jobId : Nat) (m : String)
    (tag : Nat) (cq eq : String) (pubOk : String → Json → Bool)
    (h : pubOk eq (processingErrorMessage jobId m) = true) :
    dispatchDelivery (.error (.processingError jobId m)) tag cq eq pubOk
      = [.publish eq (processingErrorMessage jobId m) true, .ack tag]
    ∧ (processingErrorMessage jobId m).lookup "job_id" = some (.num jobId)
    ∧ (processingErrorMessage jobId m).lookup "status" = some (.str "error")
    ∧ (processingErrorMessage jobId m).lookup "message" = some (.str m) := by
  refine ⟨?_, rfl, rfl, rfl⟩
  simp [dispatchDelivery, h]

/-- Witness for C2 at a concrete processing error whose publish succeeds. -/
theorem processing_error_publishes_and_acks_witness :
    dispatchDelivery (.error (.processingError 7 "boom")) 4 "q_completed"
        "q_error" (fun _ _ => true)
      = [.publish "q_error" (processingErrorMessage 7 "boom") true, .ack 4] :=
  (processing_error_publishes_and_acks 7 "boom" 4 "q_completed" "q_error"
      (fun _ _ => true) rfl).1

/-- C3 counterexample: at the concrete `NotImplemented` input the dispatch
loop only rejects the delivery with requeue — the trace contains no publish
at all, so no terminal `Error` response is emitted, contradicting the
claim. -/
theorem not_implemented_counterexample :
    dispatchDelivery (.error .notImplemented) 1 "q_completed" "q_error"
        (fun _ _ => true) = [.reject 1 true]
    ∧ (dispatchDelivery (.error .notImplemented) 1 "q_completed" "q_error"
        (fun _ _ => true)).filter isPublish = [] :=
  ⟨rfl, rfl⟩

/-- C3 (amended): when the handler's `process` returns `NotImplemented`,
the dispatch loop rejects the delivery with requeue and publishes nothing:
neither an `Error` nor a `Completed` response is emitted for that order. -/
theorem not_implemented_rejects_with_requeue (tag : Nat) (cq eq : String)
    (pubOk : String → Json → Bool) :
    dispatchDelivery (.error .notImplemented) tag cq eq pubOk = [.reject tag true]
    ∧ (dispatchDelivery (.error .notImplemented) tag cq eq pubOk).filter
        isPublish = [] :=
  ⟨rfl, rfl⟩

/-- C7 counterexample: at a concrete successful job the payload published
to the completed queue is `{"job_id": 1, "status": "completed"}` — it has
no `parameters` field and no `datetime` field, contradicting the claim. -/
theorem completed_response_counterexample :
    dispatchDelivery (.ok 1) 2 "q_completed" "q_error" (fun _ _ => true)
      = [.publish "q_completed" (completedMessage 1) true, .ack 2]
    ∧ (completedMessage 1).lookup "parameters" = none
    ∧ (completedMessage 1).lookup "datetime" = none :=
  ⟨rfl, rfl, rfl⟩

/-- C7 (amended): for every job whose handler `process` succeeds, the first
dispatch action publishes to the completed queue the JSON document with
fields `job_id` and status `completed` and nothing else: it carries no
`parameters` list and no `datetime`. -/
theorem completed_response_fields (jobId : Nat) (tag : Nat) (cq eq : String)
    (pubOk : String → Json → Bool) :
    (dispatchDelivery (.ok jobId) tag cq eq pubOk).head?
      = some (.publish cq (completedMessage jobId)
          (pubOk cq (completedMessage jobId)))
    ∧ (completedMessage jobId).lookup "job_id" = some (.num jobId)
    ∧ (completedMessage jobId).lookup "status" = some (.str "completed")
    ∧ (completedMessage jobId).lookup "parameters" = none
    ∧ (completedMessage jobId).lookup "datetime" = none := by
  refine ⟨?_, rfl, rfl, rfl, rfl⟩
  cases h : pubOk cq (completedMessage jobId) <;> simp [dispatchDelivery, h]

end AmqpWorker

/-- C8: the default implementation of the `MessageEvent` `process` hook
returns `Err(NotImplemented())` for every input — any message string in the
old SDK, and any channel, parameter set and job result in the new SDK —
without inspecting its arguments. -/
theorem process_default_not_implemented :
    (∀ message : String,
      AmqpWorker.processDefault message = .error .notImplemented)
    ∧ (∀ (C P : Type) (channel : Option C) (parameters : P)
        (jobResult : McaiWorkerSdk.JobResult),
        McaiWorkerSdk.processDefault channel parameters jobResult
          = .error .notImplemented) :=
  ⟨fun _ => rfl, fun _ _ _ _ _ => rfl⟩

namespace McaiWorkerSdk

theorem ordersOf_reads (ms : List (Option ResponseMessage)) :
    ordersOf (ms.map WorkerEffect.readResponse) = [] := by
  induction ms with
  | nil => rfl
  | cons m ms ih => simp only [List.map_cons, ordersOf, List.filterMap_cons] at ih ⊢; exact ih

theorem ordersOf_append (a b : List WorkerEffect) :
    ordersOf (a ++ b) = ordersOf a ++ ordersOf b := by
  simp [ordersOf, List.filterMap_append]

theorem ordersOf_flatMap_effects (fts : List FileTrace) :
    ordersOf (fts.flatMap FileTrace.effects)
      = (fts.map FileTrace.job).flatMap
          (fun j => [OrderMessage.initProcess j, OrderMessage.startProcess j]) := by
  induction fts with
  | nil => rfl
  | cons ft fts ih =>
    simp only [List.flatMap_cons, List.map_cons, ordersOf_append, ih,
      FileTrace.effects]
    simp [ordersOf, List.filterMap_cons, ordersOf_reads]

theorem replayRun_done_jobs (r : String → Option String) (p : String → Option Job)
    (files : List String) :
    ∀ s fts rest, replayRun r p files s = .done fts rest →
      fts.map FileTrace.job = files.filterMap (fun f => r f >>= p) := by
  induction files with
  | nil =>
    intro s fts rest h
    simp only [replayRun] at h
    cases h
    rfl
  | cons f fs ih =>
    intro s fts rest h
    simp only [replayRun] at h
    cases hr : r f with
    | none => simp only [hr] at h; cases h
    | some content =>
      simp only [hr] at h
      cases hp : p content with
      | none => simp only [hp] at h; cases h
      | some job =>
        simp only [hp] at h
        cases hc : consumeUntil s with
        | none => simp only [hc] at h; cases h
        | some msrest =>
          obtain ⟨ms, srest⟩ := msrest
          simp only [hc] at h
          cases hrec : replayRun r p fs srest with
          | panic fts2 => simp only [hrec] at h; cases h
          | blocked fts2 j2 => simp only [hrec] at h; cases h
          | done fts2 rest2 =>
            simp only [hrec] at h
            injection h with h1 h2
            subst h1
            subst h2
            simp [List.filterMap_cons, hr, hp, ih srest fts2 rest2 hrec]

theorem consumeUntil_rest_subset (s : List RespItem) :
    ∀ ms rest, consumeUntil s = some (ms, rest) → ∀ x ∈ rest, x ∈ s := by
  induction s with
  | nil => intro ms rest h; cases h
  | cons item s ih =>
    intro ms rest h x hx
    cases item with
    | error u =>
      simp only [consumeUntil] at h
      cases h
      exact List.mem_cons_of_mem _ hx
    | ok m =>
      simp only [consumeUntil] at h
      by_cases ht : isTerminal m = true
      · rw [if_pos ht] at h
        cases h
        exact List.mem_cons_of_mem _ hx
      · rw [if_neg ht] at h
        cases hc : consumeUntil s with
        | none => rw [hc] at h; cases h
        | some msr =>
          rw [hc] at h
          obtain ⟨ms2, r2⟩ := msr
          cases h
          exact List.mem_cons_of_mem _ (ih ms2 rest hc x hx)

theorem consumeUntil_stops (s : List RespItem)
    (hok : ∀ x ∈ s, ∃ m, x = Except.ok m) :
    ∀ ms rest, consumeUntil s = some (ms, rest) → stopsAtTerminal ms = true := by
  induction s with
  | nil => intro ms rest h; cases h
  | cons item s ih =>
    intro ms rest h
    cases item with
    | error u =>
      obtain ⟨m, hm⟩ := hok _ (List.mem_cons_self _ _)
      cases hm
    | ok m =>
      simp only [consumeUntil] at h
      by_cases ht : isTerminal m = true
      · rw [if_pos ht] at h
        cases h
        simpa [stopsAtTerminal] using ht
      · rw [if_neg ht] at h
        cases hc : consumeUntil s with
        | none => rw [hc] at h; cases h
        | some msr =>
          rw [hc] at h
          obtain ⟨ms2, r2⟩ := msr
          cases h
          have hok2 : ∀ x ∈ s, ∃ m2, x = Except.ok m2 := fun x hx =>
            hok x (List.mem_cons_of_mem _ hx)
          have h2 := ih hok2 ms2 rest hc
          cases ms2 with
          | nil => simp [stopsAtTerminal] at h2
          | cons m2 ms3 => simp [stopsAtTerminal, ht, h2]

theorem replayRun_done_stops (r : String → Option String) (p : String → Option Job)
    (files : List String) :
    ∀ s fts rest, (∀ x ∈ s, ∃ m, x = Except.ok m) →
      replayRun r p files s = .done fts rest →
      ∀ ft ∈ fts, stopsAtTerminal ft.reads = true := by
  induction files with
  | nil =>
    intro s fts rest _ h
    simp only [replayRun] at h
    cases h
    intro ft hft
    cases hft
  | cons f fs ih =>
    intro s fts rest hok h
    simp only [replayRun] at h
    cases hr : r f with
    | none => simp only [hr] at h; cases h
    | some content =>
      simp only [hr] at h
      cases hp : p content with
      | none => simp only [hp] at h; cases h
      | some job =>
        simp only [hp] at h
        cases hc : consumeUntil s with
        | none => simp only [hc] at h; cases h
        | some msrest =>
          obtain ⟨ms, srest⟩ := msrest
          simp only [hc] at h
          cases hrec : replayRun r p fs srest with
          | panic fts2 => simp only [hrec] at h; cases h
          | blocked fts2 j2 => simp only [hrec] at h; cases h
          | done fts2 rest2 =>
            simp only [hrec] at h
            injection h with h1 h2
            subst h1
            subst h2
            intro ft hft
            rcases List.mem_cons.mp hft with hft | hft
            · subst hft
              exact consumeUntil_stops s hok ms srest hc
            · have hok2 : ∀ x ∈ srest, ∃ m, x = Except.ok m := fun x hx =>
                hok x (consumeUntil_rest_subset s ms srest hc x hx)
              exact ih srest fts2 rest2 hok2 hrec ft hft

theorem replayRun_no_panic (r : String → Option String) (p : String → Option Job)
    (files : List String) :
    ∀ s, (∀ f ∈ files, ∃ j, (r f >>= p) = some j) →
      ∀ fts, replayRun r p files s ≠ .panic fts := by
  induction files with
  | nil => intro s _ fts h; simp only [replayRun] at h; cases h
  | cons f fs ih =>
    intro s hall fts h
    obtain ⟨j, hj⟩ := hall f (List.mem_cons_self _ _)
    rcases Option.bind_eq_some.mp hj with ⟨content, hr, hp⟩
    simp only [replayRun, hr, hp] at h
    cases hc : consumeUntil s with
    | none => simp only [hc] at h; cases h
    | some msrest =>
      obtain ⟨ms, srest⟩ := msrest
      simp only [hc] at h
      cases hrec : replayRun r p fs srest with
      | panic fts2 =>
        exact ih srest (fun g hg => hall g (List.mem_cons_of_mem _ hg)) fts2 hrec
      | blocked fts2 j2 => simp only [hrec] at h; cases h
      | done fts2 rest2 => simp only [hrec] at h; cases h

theorem replayRun_first_file_panics (r : String → Option String)
    (p : String → Option Job) (f : String) (fs : List String)
    (s : List RespItem) (h : (r f >>= p) = none) :
    replayRun r p (f :: fs) s = .panic [] := by
  cases hr : r f with
  | none => simp [replayRun, hr]
  | some content =>
    rw [hr] at h
    have hp : p content = none := by simpa using h
    simp [replayRun, hr, hp]

theorem startWorkerModel_continue (env : WorkerEnv) (cfg : WorkerConfiguration)
    (hc : env.configResult = .ok cfg) (hd : describeRequested env = false) :
    startWorkerModel env = startWorkerContinue env := by
  cases hdv : env.describeVar with
  | none => simp [startWorkerModel, hc, hdv]
  | some s =>
    have : describeEnabled s = false := by
      simpa [describeRequested, hdv] using hd
    simp [startWorkerModel, hc, hdv, this]

end McaiWorkerSdk

namespace McaiWorkerSdk

/-- C4: with the local-orders source list set (and configuration, DESCRIBE
check and handler init passing), `start_worker` processes the files strictly
in list order — for each file the parsed job's `InitProcess` is sent, then
its `StartProcess`, and (when the exchange never errors) responses are read
up to exactly the first `Completed` or `Error` before the next file — and
returns cleanly with exit status zero after the last file. -/
theorem start_worker_replay_in_order (env : WorkerEnv) (cfg : WorkerConfiguration)
    (files : List String) (fts : List FileTrace) (rest : List RespItem)
    (hc : env.configResult = .ok cfg)
    (hd : describeRequested env = false)
    (hi : env.initResult = .ok ())
    (hs : env.sourceOrders = some files)
    (hr : replayRun env.readFile env.parseJob files env.responses = .done fts rest)
    (hok : ∀ x ∈ env.responses, ∃ m, x = Except.ok m) :
    startWorkerModel env = (.exited 0, .handlerInit :: fts.flatMap FileTrace.effects)
    ∧ fts.map FileTrace.job
        = files.filterMap (fun f => env.readFile f >>= env.parseJob)
    ∧ ordersOf (fts.flatMap FileTrace.effects)
        = (fts.map FileTrace.job).flatMap
            (fun j => [OrderMessage.initProcess j, OrderMessage.startProcess j])
    ∧ ∀ ft ∈ fts, stopsAtTerminal ft.reads = true := by
  refine ⟨?_, ?_, ?_, ?_⟩
  · rw [startWorkerModel_continue env cfg hc hd]
    simp [startWorkerContinue, hi, hs, hr]
  · exact replayRun_done_jobs env.readFile env.parseJob files env.responses fts rest hr
  · exact ordersOf_flatMap_effects fts
  · exact replayRun_done_stops env.readFile env.parseJob files env.responses fts rest hok hr

/-- Witness for C4 at the concrete one-file environment `sampleEnv`. -/
theorem start_worker_replay_in_order_witness :
    startWorkerModel sampleEnv
      = (.exited 0, .handlerInit :: [sampleTrace].flatMap FileTrace.effects) :=
  (start_worker_replay_in_order sampleEnv sampleConfig ["order.json"]
      [sampleTrace] [] rfl rfl rfl rfl rfl
      (by
        intro x hx
        cases x with
        | ok m => exact ⟨m, rfl⟩
        | error u => simp [sampleEnv, sampleResponses] at hx)).1

/-- C5 counterexample: at a concrete environment whose
`WorkerConfiguration::new` fails, `start_worker` returns normally (process
exit status 0), not with exit code 1; at a concrete environment whose
handler `init()` fails, it also returns normally, not with exit code 2. -/
theorem exit_code_counterexample :
    (startWorkerModel configErrorEnv).1 = .exited 0
    ∧ (startWorkerModel configErrorEnv).1 ≠ .exited 1
    ∧ (startWorkerModel initErrorEnv).1 = .exited 0
    ∧ (startWorkerModel initErrorEnv).1 ≠ .exited 2 := by
  refine ⟨rfl, ?_, rfl, ?_⟩ <;> decide

/-- C5 (amended): `start_worker` never calls a process exit with a nonzero
code — it returns normally (exit status 0) on a configuration error at
startup, on DESCRIBE success, and on a handler initialization failure
alike. -/
theorem start_worker_returns_exit_zero (env : WorkerEnv) :
    (∀ e, env.configResult = .error e →
        startWorkerModel env = (.exited 0, [.logError e]))
    ∧ (∀ cfg s, env.configResult = .ok cfg → env.describeVar = some s →
        describeEnabled s = true → env.serializeOk = true →
        startWorkerModel env = (.exited 0, [.printLine cfg.serialize]))
    ∧ (∀ cfg e, env.configResult = .ok cfg → describeRequested env = false →
        env.initResult = .error e →
        startWorkerModel env = (.exited 0, [.handlerInit, .logError e])) := by
  refine ⟨?_, ?_, ?_⟩
  · intro e he
    simp [startWorkerModel, he]
  · intro cfg s hcfg hdv hen hser
    simp [startWorkerModel, hcfg, hdv, hen, hser]
  · intro cfg e hcfg hd hi
    rw [startWorkerModel_continue env cfg hcfg hd]
    simp [startWorkerContinue, hi]

/-- Witness for C5 at the concrete failing-configuration environment. -/
theorem start_worker_returns_exit_zero_witness :
    startWorkerModel configErrorEnv
      = (.exited 0, [.logError "configuration error"]) :=
  (start_worker_returns_exit_zero configErrorEnv).1 "configuration error" rfl

/-- C6: when the `DESCRIBE` variable is `"1"` or lowercases to `true` and
the configuration was built, `start_worker` prints the serialized
`WorkerConfiguration` — whose JSON fields include the queue, worker name,
worker version, SDK version, instance id and the parameter schema — and
returns with exit status zero, without calling the handler `init()` and
without connecting to any broker. -/
theorem describe_mode_prints_configuration (env : WorkerEnv)
    (cfg : WorkerConfiguration) (s : String)
    (hc : env.configResult = .ok cfg) (hd : env.describeVar = some s)
    (he : describeEnabled s = true) (hs : env.serializeOk = true) :
    startWorkerModel env = (.exited 0, [.printLine cfg.serialize])
    ∧ cfg.serialize.lookup "queue" = some (.str cfg.queue)
    ∧ cfg.serialize.lookup "worker_name" = some (.str cfg.worker_name)
    ∧ cfg.serialize.lookup "worker_version" = some (.str cfg.worker_version)
    ∧ cfg.serialize.lookup "sdk_version" = some (.str cfg.sdk_version)
    ∧ cfg.serialize.lookup "instance_id" = some (.str cfg.instance_id)
    ∧ cfg.serialize.lookup "parameters" = some cfg.parameter_schema
    ∧ WorkerEffect.handlerInit ∉ (startWorkerModel env).2
    ∧ WorkerEffect.connectBroker ∉ (startWorkerModel env).2 := by
  have hmain : startWorkerModel env = (.exited 0, [.printLine cfg.serialize]) := by
    simp [startWorkerModel, hc, hd, he, hs]
  refine ⟨hmain, rfl, rfl, rfl, rfl, rfl, rfl, ?_, ?_⟩ <;> simp [hmain]

/-- Witness for C6 at the concrete environment with `DESCRIBE=1`. -/
theorem describe_mode_prints_configuration_witness :
    startWorkerModel describeEnv
      = (.exited 0, [.printLine sampleConfig.serialize]) :=
  (describe_mode_prints_configuration describeEnv sampleConfig "1"
      rfl rfl rfl rfl).1

/-- C10: in local replay mode (configuration, DESCRIBE check and handler
init passing), if the first listed order file cannot be read or parsed the
model panics — the `unwrap()` calls — having emitted nothing: no order is
sent, no `Error` response is produced, nothing is rejected; and under the
precondition that every listed file reads and parses as a `Job`, the panic
branches are unreachable. -/
theorem replay_panics_only_on_bad_order_file (env : WorkerEnv)
    (cfg : WorkerConfiguration) (files : List String)
    (hc : env.configResult = .ok cfg) (hd : describeRequested env = false)
    (hi : env.initResult = .ok ()) (hs : env.sourceOrders = some files) :
    ((∀ f ∈ files, ∃ j, (env.readFile f >>= env.parseJob) = some j) →
        (startWorkerModel env).1 ≠ .panicked)
    ∧ (∀ f fs, files = f :: fs → (env.readFile f >>= env.parseJob) = none →
        startWorkerModel env = (.panicked, [.handlerInit])) := by
  constructor
  · intro hall
    rw [startWorkerModel_continue env cfg hc hd]
    simp only [startWorkerContinue, hi, hs]
    cases hrep : replayRun env.readFile env.parseJob files env.responses with
    | panic fts =>
      exact absurd hrep
        (replayRun_no_panic env.readFile env.parseJob files env.responses hall fts)
    | blocked fts j => simp
    | done fts rest => simp
  · intro f fs hfiles hnone
    subst hfiles
    rw [startWorkerModel_continue env cfg hc hd]
    simp [startWorkerContinue, hi, hs,
      replayRun_first_file_panics env.readFile env.parseJob f fs env.responses hnone,
      List.flatMap]

/-- Witness for C10: the all-files-parse side at `sampleEnv`, and the
panic side at the concrete environment whose file cannot be read. -/
theorem replay_panics_only_on_bad_order_file_witness :
    (startWorkerModel sampleEnv).1 ≠ .panicked
    ∧ startWorkerModel badFileEnv = (.panicked, [.handlerInit]) :=
  ⟨(replay_panics_only_on_bad_order_file sampleEnv sampleConfig ["order.json"]
        rfl rfl rfl rfl).1
      (by
        intro f hf
        simp only [List.mem_singleton] at hf
        subst hf
        exact ⟨sampleJob, rfl⟩),
   (replay_panics_only_on_bad_order_file badFileEnv sampleConfig ["order.json"]
        rfl rfl rfl rfl).2 "order.json" [] rfl rfl⟩

end McaiWorkerSdk

namespace Credential

/-- C9: the credential resolver's behaviour does not depend on the store
code: for any two store codes, the same key, backend configuration and HTTP
collaborators, `request_value` returns the same result and issues the same
requests; and whenever it succeeds, the requests issued are exactly a POST
to the session URL followed by a GET of the credential URL for that key. -/
theorem request_value_independent_of_store_code (credential_key s1 s2 : String)
    (cfg : BackendConfig) (env : HttpEnv) :
    request_value credential_key s1 cfg env = request_value credential_key s2 cfg env
    ∧ (∀ v, (request_value credential_key s1 cfg env).1 = .ok v →
        (request_value credential_key s1 cfg env).2.map HttpRequest.url
            = [cfg.hostname ++ "/sessions",
               cfg.hostname ++ "/credentials/" ++ credential_key]
          ∧ (request_value credential_key s1 cfg env).2.map HttpRequest.isPost
            = [true, false]) := by
  refine ⟨rfl, ?_⟩
  intro v hv
  unfold request_value at hv ⊢
  cases hb : env.buildClient [] with
  | error e => simp only [hb] at hv ⊢; cases hv
  | ok u =>
    simp only [hb] at hv ⊢
    cases hp : env.postSession (cfg.hostname ++ "/sessions")
        { session := { email := cfg.username, password := cfg.password } } with
    | error e => simp only [hp] at hv ⊢; cases hv
    | ok response =>
      simp only [hp] at hv ⊢
      cases hh : headerValueFromStr response.access_token with
      | error e => simp only [hh] at hv ⊢; cases hv
      | ok token =>
        simp only [hh] at hv ⊢
        cases hb2 : env.buildClient [("authorization", token)] with
        | error e => simp only [hb2] at hv ⊢; cases hv
        | ok u2 =>
          simp only [hb2] at hv ⊢
          cases hg : env.getCredential
              (cfg.hostname ++ "/credentials/" ++ credential_key)
              [("authorization", token)] with
          | error e => simp only [hg] at hv ⊢; cases hv
          | ok vresp =>
            simp only [hg] at hv ⊢
            exact ⟨rfl, rfl⟩

/-- Witness for C9 at concrete store codes and an all-success HTTP
collaborator. -/
theorem request_value_independent_of_store_code_witness :
    (request_value "my_key" "store_a" sampleBackend sampleHttp).2.map
        HttpRequest.url
      = ["http://backend/api/sessions", "http://backend/api/credentials/my_key"] :=
  ((request_value_independent_of_store_code "my_key" "store_a" "store_b"
      sampleBackend sampleHttp).2 "secret" rfl).1

end Credential
